import Mathlib

/-!
# Verification of the invest-portal financials/recommendation engine

Shallow embedding of the repository's reconciliation and scoring code:

* `mergeRowsPreferFinnhub` and its helpers model the year-union /
  field-level source-preference merge of `src/app/api/financials/route.ts`.
* `recommend` and its helpers model the scoring pipeline of the
  recommendation route (`src/unnamed/part_009`): feature engineering
  (revenue CAGR, margins), multiples sanitization, weighted sub-scores,
  coverage-aware normalization, signal derivation and the low-confidence
  override.

JavaScript numbers are modelled by `ℚ`; nullable fields by `Option ℚ`
(a non-finite value is coerced to absence at the boundary, as the code's
`isNum` guard does).  `Math.pow (x, 1/n)` is an irrational operation, so
it is kept abstract as a parameter `nroot : ℚ → ℕ → ℚ`; no verified
property depends on its value.  `Math.round` rounds half away from zero
upward (toward +∞), modelled by `jround`.
-/

namespace InvestPortal

/-- One fiscal year of fundamentals, the `Row` type of the code.
`none` means the field is absent or non-finite. -/
structure Row where
  year : Int
  revenue : Option ℚ
  opIncome : Option ℚ
  fcf : Option ℚ
deriving DecidableEq

/-- `clamp(x, lo, hi) = Math.max(lo, Math.min(hi, x))`. -/
def clamp (x lo hi : ℚ) : ℚ := max lo (min hi x)

/-- JavaScript `Math.round`: round half toward +∞, i.e. `⌊x + 1/2⌋`. -/
def jround (x : ℚ) : Int := ⌊x + 1/2⌋

/-- `scaleLinear`: maps `x0 ↦ 0`, `x1 ↦ 1`, clamped to `[0,1]`. -/
def scaleLinear (x x0 x1 : ℚ) : ℚ := clamp ((x - x0) / (x1 - x0)) 0 1

/-- `scaleInverse`: maps `best ↦ 1`, `worst ↦ 0`, clamped to `[0,1]`. -/
def scaleInverse (x best worst : ℚ) : ℚ := clamp ((worst - x) / (worst - best)) 0 1

/-- The `cagr` helper: `null` when an endpoint is `≤ 0` or the interval
count is `0`; otherwise `pow(last/first, 1/years) - 1` with the root
abstracted as `nroot`. -/
def cagr (nroot : ℚ → ℕ → ℚ) (first lst : ℚ) (years : ℕ) : Option ℚ :=
  if first ≤ 0 ∨ lst ≤ 0 ∨ years = 0 then none
  else some (nroot (lst / first) years - 1)

/-- Warning text pushed when P/S is sanitized away. -/
def psNote : String := "P/S is extremely high; skipped from scoring (not comparable)."

/-- Warning text pushed when P/E is sanitized away. -/
def peNote : String := "P/E is extremely high; skipped from scoring (not comparable)."

/-- Result of `sanitizeMultiples`. -/
structure SanitizedMultiples where
  pe : Option ℚ
  ps : Option ℚ
  notes : List String
deriving DecidableEq

/-- `true` iff the optional value is present and exceeds the threshold. -/
def optGt (o : Option ℚ) (t : ℚ) : Bool :=
  match o with
  | some v => decide (t < v)
  | none => false

/-- `sanitizeMultiples`: P/S > 40 and P/E > 80 are nulled out for scoring,
each with a note (P/S note first, as in the code). -/
def sanitizeMultiples (pe ps : Option ℚ) : SanitizedMultiples :=
  let psBad := optGt ps 40
  let peBad := optGt pe 80
  { pe := if peBad then none else pe
    ps := if psBad then none else ps
    notes := (if psBad then [psNote] else []) ++ (if peBad then [peNote] else []) }

/-- Confidence levels. -/
inductive Confidence | HIGH | MED | LOW
deriving DecidableEq

/-- `pickConfidence`: HIGH for coverage ≥ 0.7, MED for ≥ 0.35, else LOW. -/
def pickConfidence (coverage : ℚ) : Confidence :=
  if 7/10 ≤ coverage then .HIGH
  else if 7/20 ≤ coverage then .MED
  else .LOW

/-- The categorical signal. -/
inductive Signal | BUY | WATCH | HOLD | AVOID
deriving DecidableEq

/-- Signal thresholds on the final score. -/
def signalOf (scoreFinal : Int) : Signal :=
  if 70 ≤ scoreFinal then .BUY
  else if 55 ≤ scoreFinal then .WATCH
  else if 40 ≤ scoreFinal then .HOLD
  else .AVOID

/-- Rows sorted ascending by year (`[...rows].sort((a,b) => a.year - b.year)`,
a stable sort). -/
def sortRows (rows : List Row) : List Row :=
  List.insertionSort (fun a b => a.year ≤ b.year) rows

/-- The year-over-year fallback for revenue growth: present when the two
most recent rows both carry revenue and the earlier one is nonzero. -/
def yoyOf (rs : List Row) : Option ℚ :=
  let prevRev := (if 2 ≤ rs.length then rs.get? (rs.length - 2) else none).bind Row.revenue
  let latestRev := rs.getLast?.bind Row.revenue
  match prevRev, latestRev with
  | some p, some l => if p ≠ 0 then some (l / p - 1) else none
  | _, _ => none

/-- `revCagr` selection on the (already sorted) rows: the CAGR branch when
there are at least 3 rows with both endpoint revenues present, else the
YoY branch. -/
def revCagrOf (nroot : ℚ → ℕ → ℚ) (rs : List Row) : Option ℚ :=
  match rs.head?.bind Row.revenue, rs.getLast?.bind Row.revenue with
  | some orv, some lrv =>
      if 3 ≤ rs.length then cagr nroot orv lrv (rs.length - 1) else yoyOf rs
  | _, _ => yoyOf rs

/-- Latest-year operating margin: `opIncome / revenue`, absent when either
is absent or revenue is zero. -/
def opMarginOf (rs : List Row) : Option ℚ :=
  match rs.getLast? with
  | some l =>
    match l.opIncome, l.revenue with
    | some oi, some rv => if rv ≠ 0 then some (oi / rv) else none
    | _, _ => none
  | none => none

/-- Latest-year FCF margin: `fcf / revenue`, absent when either is absent
or revenue is zero. -/
def fcfMarginOf (rs : List Row) : Option ℚ :=
  match rs.getLast? with
  | some l =>
    match l.fcf, l.revenue with
    | some fc, some rv => if rv ≠ 0 then some (fc / rv) else none
    | _, _ => none
  | none => none

/-- Growth sub-score: `scaleLinear(revCagr, -0.2, 0.3) * 35`, or 0 when
the CAGR is absent. -/
def growthScoreOf (revCagr : Option ℚ) : ℚ :=
  match revCagr with
  | some c => scaleLinear c (-(1/5)) (3/10) * 35
  | none => 0

/-- Operating-margin half of the margin sub-score: up to 20 points over
[0, 25%]. -/
def opPartOf (opMargin : Option ℚ) : ℚ :=
  match opMargin with
  | some m => scaleLinear m 0 (1/4) * 20
  | none => 0

/-- FCF-margin half of the margin sub-score: up to 15 points over [0, 20%]. -/
def fcfPartOf (fcfMargin : Option ℚ) : ℚ :=
  match fcfMargin with
  | some m => scaleLinear m 0 (1/5) * 15
  | none => 0

/-- P/E part of the value sub-score: up to 18 points, inverse-scaled over
[best 10, worst 40]. -/
def pePartOf (pe : Option ℚ) : ℚ :=
  match pe with
  | some v => scaleInverse v 10 40 * 18
  | none => 0

/-- P/S part of the value sub-score: up to 12 points, inverse-scaled over
[best 1, worst 12]. -/
def psPartOf (ps : Option ℚ) : ℚ :=
  match ps with
  | some v => scaleInverse v 1 12 * 12
  | none => 0

/-- Used total weight: 35 for growth, 35 for margin, 30 for value,
summed over the used components. -/
def usedTotalWeightOf (g m v : Bool) : ℚ :=
  (if g then 35 else 0) + (if m then 35 else 0) + (if v then 30 else 0)

/-- The recommendation result fields that the verified claims speak about
(the scoring engine's output, minus presentation-only text). -/
structure RecoResult where
  revCagr : Option ℚ
  opMargin : Option ℚ
  fcfMargin : Option ℚ
  peScored : Option ℚ
  psScored : Option ℚ
  usedGrowth : Bool
  usedMargin : Bool
  usedValue : Bool
  growthScore : ℚ
  marginScore : ℚ
  valueScore : ℚ
  usedTotalWeight : ℚ
  scoreNorm : ℚ
  coverage : ℚ
  penaltyFactor : ℚ
  score : Int
  baseSignal : Signal
  signal : Signal
  lowConf : Bool
  confidence : Confidence
  warnings : List String
  summaryPe : Option ℚ
  summaryPs : Option ℚ
deriving DecidableEq

/-- Warning text for zero coverage. -/
def noSignalsWarning : String := "No usable financial/value signals; neutral score used."

/-- Warning text for coverage below 0.35. -/
def veryLowCoverageWarning : String := "Very low coverage; treat as WATCH (not a strong call)."

/-- Warning text for coverage in [0.35, 0.6). -/
def lowCoverageWarning : String := "Low coverage; treat as WATCH (not a strong call)."

/-- The scoring pipeline of the recommendation route (`GET` of
`src/unnamed/part_009`), as a pure function of the financials payload's
rows and multiples.  `multiples = none` models an absent `multiples`
object; `some (pe, ps)` carries the two nullable multiples. -/
def recommend (nroot : ℚ → ℕ → ℚ) (rows : List Row)
    (multiples : Option (Option ℚ × Option ℚ)) : RecoResult :=
  let rs := sortRows rows
  let revCagr := revCagrOf nroot rs
  let opMargin := opMarginOf rs
  let fcfMargin := fcfMarginOf rs
  let pe0 := (multiples.map Prod.fst).join
  let ps0 := (multiples.map Prod.snd).join
  let mult := sanitizeMultiples pe0 ps0
  let pe := mult.pe
  let ps := mult.ps
  let usedGrowth := revCagr.isSome
  let growthScore := growthScoreOf revCagr
  let usedMargin := opMargin.isSome || fcfMargin.isSome
  let marginScore := opPartOf opMargin + fcfPartOf fcfMargin
  let usedValue := pe.isSome || ps.isSome
  let valueScore := pePartOf pe + psPartOf ps
  let usedTotalWeight := usedTotalWeightOf usedGrowth usedMargin usedValue
  let raw := growthScore + marginScore + valueScore
  let scoreNorm : ℚ :=
    if usedTotalWeight = 0 then 50
    else clamp ((jround (raw / usedTotalWeight * 100) : ℤ) : ℚ) 0 100
  let coverage := usedTotalWeight / 100
  let penaltyFactor := 7/10 + 3/10 * coverage
  let score : Int := max 0 (min 100 (jround (scoreNorm * penaltyFactor)))
  let baseSignal := signalOf score
  let lowConf := decide (coverage < 3/5)
  let warnings := mult.notes ++
    (if coverage = 0 then [noSignalsWarning]
     else if coverage < 7/20 then [veryLowCoverageWarning]
     else if coverage < 3/5 then [lowCoverageWarning]
     else [])
  let signal := if lowConf = true ∧ baseSignal ≠ Signal.WATCH then Signal.WATCH else baseSignal
  { revCagr := revCagr
    opMargin := opMargin
    fcfMargin := fcfMargin
    peScored := pe
    psScored := ps
    usedGrowth := usedGrowth
    usedMargin := usedMargin
    usedValue := usedValue
    growthScore := growthScore
    marginScore := marginScore
    valueScore := valueScore
    usedTotalWeight := usedTotalWeight
    scoreNorm := scoreNorm
    coverage := coverage
    penaltyFactor := penaltyFactor
    score := score
    baseSignal := baseSignal
    signal := signal
    lowConf := lowConf
    confidence := pickConfidence coverage
    warnings := warnings
    summaryPe := pe0
    summaryPs := ps0 }

/-- A concrete instantiation of the abstract root used by witnesses;
no verified property depends on its value. -/
def nroot₀ : ℚ → ℕ → ℚ := fun x _ => x

/-! ## Reconciler: `mergeRowsPreferFinnhub` of `src/app/api/financials/route.ts` -/

/-- A merged row: the three fields plus per-field provenance strings
(`"finnhub"`, `"sec"` or `"none"`), the `meta` block of the code. -/
structure MergedRow where
  year : Int
  revenue : Option ℚ
  opIncome : Option ℚ
  fcf : Option ℚ
  revenueSource : String
  opIncomeSource : String
  fcfSource : String
deriving DecidableEq

/-- The row a `Map.set` loop leaves for a year: the **last** row of the
list with that year (later `set` calls overwrite earlier ones). -/
def lastRowFor (l : List Row) (y : Int) : Option Row :=
  l.reverse.find? (fun r => r.year == y)

/-- Union of the year keys of both providers (the key set of `byYear`). -/
def unionYears (fh sec : List Row) : List Int :=
  ((fh.map Row.year) ++ (sec.map Row.year)).dedup

/-- Year keys sorted ascending, keeping only the 3 most recent
(`sort((a,b) => a-b).slice(-3)`). -/
def mergedYears (fh sec : List Row) : List Int :=
  let ys := List.insertionSort (· ≤ ·) (unionYears fh sec)
  ys.drop (ys.length - 3)

/-- Field-level resolution: the preferred (finnhub) value when present,
else the fallback (sec) value when present, else null; paired with the
provenance string. -/
def resolveField (a b : Option ℚ) : Option ℚ × String :=
  match a with
  | some v => (some v, "finnhub")
  | none =>
    match b with
    | some v => (some v, "sec")
    | none => (none, "none")

/-- Build the merged row for a year from both providers' rows. -/
def mergeRow (fh sec : List Row) (y : Int) : MergedRow :=
  let a := lastRowFor fh y
  let b := lastRowFor sec y
  let rv := resolveField (a.bind Row.revenue) (b.bind Row.revenue)
  let oi := resolveField (a.bind Row.opIncome) (b.bind Row.opIncome)
  let fc := resolveField (a.bind Row.fcf) (b.bind Row.fcf)
  { year := y
    revenue := rv.1
    opIncome := oi.1
    fcf := fc.1
    revenueSource := rv.2
    opIncomeSource := oi.2
    fcfSource := fc.2 }

/-- `mergeRowsPreferFinnhub`: union years, keep the 3 most recent, and
resolve each field of each year preferring the finnhub row. -/
def mergeRowsPreferFinnhub (fh sec : List Row) : List MergedRow :=
  (mergedYears fh sec).map (mergeRow fh sec)

/-! ## Financials route: the no-CIK soft-degradation branch -/

/-- The financials payload shape consumed by the scoring route. -/
structure FinancialsPayload where
  sourceNote : Option String
  rows : List Row
  multiples : Option (Option ℚ × Option ℚ)
deriving DecidableEq

/-- A route outcome: a JSON payload with an HTTP status, or an error
object with a status. -/
inductive FinResponse
  | ok (status : Nat) (payload : FinancialsPayload)
  | error (status : Nat) (message : String)
deriving DecidableEq

/-- The payload the financials route returns when SEC has no CIK mapping
for the ticker: empty rows, null multiples, explanatory note. -/
def noCikPayload : FinancialsPayload :=
  { sourceNote := some "SEC has no CIK mapping for this ticker."
    rows := []
    multiples := some (none, none) }

/-- The no-CIK branch of the financials route: HTTP 200 with the empty
payload, not an error. -/
def noCikResponse : FinResponse := .ok 200 noCikPayload

/-! ## Helper lemmas -/

theorem clamp_le_right (x lo hi : ℚ) (h : lo ≤ hi) : clamp x lo hi ≤ hi :=
  max_le h (min_le_left _ _)

theorem le_clamp_left (x lo hi : ℚ) : lo ≤ clamp x lo hi :=
  le_max_left _ _

theorem scaleLinear_nonneg (x x0 x1 : ℚ) : 0 ≤ scaleLinear x x0 x1 :=
  le_clamp_left _ _ _

theorem scaleLinear_le_one (x x0 x1 : ℚ) : scaleLinear x x0 x1 ≤ 1 :=
  clamp_le_right _ _ _ (by norm_num)

theorem scaleInverse_nonneg (x b w : ℚ) : 0 ≤ scaleInverse x b w :=
  le_clamp_left _ _ _

theorem scaleInverse_le_one (x b w : ℚ) : scaleInverse x b w ≤ 1 :=
  clamp_le_right _ _ _ (by norm_num)

theorem growthScoreOf_bounds (o : Option ℚ) :
    0 ≤ growthScoreOf o ∧ growthScoreOf o ≤ 35 := by
  cases o with
  | none => simp [growthScoreOf]
  | some c =>
    constructor
    · exact mul_nonneg (scaleLinear_nonneg _ _ _) (by norm_num)
    · calc scaleLinear c (-(1/5)) (3/10) * 35 ≤ 1 * 35 := by
            exact mul_le_mul_of_nonneg_right (scaleLinear_le_one _ _ _) (by norm_num)
        _ = 35 := by norm_num

theorem opPartOf_bounds (o : Option ℚ) : 0 ≤ opPartOf o ∧ opPartOf o ≤ 20 := by
  cases o with
  | none => simp [opPartOf]
  | some m =>
    constructor
    · exact mul_nonneg (scaleLinear_nonneg _ _ _) (by norm_num)
    · calc scaleLinear m 0 (1/4) * 20 ≤ 1 * 20 := by
            exact mul_le_mul_of_nonneg_right (scaleLinear_le_one _ _ _) (by norm_num)
        _ = 20 := by norm_num

theorem fcfPartOf_bounds (o : Option ℚ) : 0 ≤ fcfPartOf o ∧ fcfPartOf o ≤ 15 := by
  cases o with
  | none => simp [fcfPartOf]
  | some m =>
    constructor
    · exact mul_nonneg (scaleLinear_nonneg _ _ _) (by norm_num)
    · calc scaleLinear m 0 (1/5) * 15 ≤ 1 * 15 := by
            exact mul_le_mul_of_nonneg_right (scaleLinear_le_one _ _ _) (by norm_num)
        _ = 15 := by norm_num

theorem pePartOf_bounds (o : Option ℚ) : 0 ≤ pePartOf o ∧ pePartOf o ≤ 18 := by
  cases o with
  | none => simp [pePartOf]
  | some v =>
    constructor
    · exact mul_nonneg (scaleInverse_nonneg _ _ _) (by norm_num)
    · calc scaleInverse v 10 40 * 18 ≤ 1 * 18 := by
            exact mul_le_mul_of_nonneg_right (scaleInverse_le_one _ _ _) (by norm_num)
        _ = 18 := by norm_num

theorem psPartOf_bounds (o : Option ℚ) : 0 ≤ psPartOf o ∧ psPartOf o ≤ 12 := by
  cases o with
  | none => simp [psPartOf]
  | some v =>
    constructor
    · exact mul_nonneg (scaleInverse_nonneg _ _ _) (by norm_num)
    · calc scaleInverse v 1 12 * 12 ≤ 1 * 12 := by
            exact mul_le_mul_of_nonneg_right (scaleInverse_le_one _ _ _) (by norm_num)
        _ = 12 := by norm_num

theorem growthScoreOf_le_weight (o : Option ℚ) :
    growthScoreOf o ≤ if o.isSome then (35 : ℚ) else 0 := by
  cases o with
  | none => simp [growthScoreOf]
  | some c => simpa using (growthScoreOf_bounds (some c)).2

theorem marginScore_le_weight (a b : Option ℚ) :
    opPartOf a + fcfPartOf b ≤ if (a.isSome || b.isSome) then (35 : ℚ) else 0 := by
  have ha := opPartOf_bounds a
  have hb := fcfPartOf_bounds b
  cases a <;> cases b <;> simp_all [opPartOf, fcfPartOf] <;> linarith

theorem valueScore_le_weight (a b : Option ℚ) :
    pePartOf a + psPartOf b ≤ if (a.isSome || b.isSome) then (30 : ℚ) else 0 := by
  have ha := pePartOf_bounds a
  have hb := psPartOf_bounds b
  cases a <;> cases b <;> simp_all [pePartOf, psPartOf] <;> linarith

theorem usedTotalWeightOf_cases (g m v : Bool) :
    usedTotalWeightOf g m v = 0 ∨ usedTotalWeightOf g m v = 30 ∨
    usedTotalWeightOf g m v = 35 ∨ usedTotalWeightOf g m v = 65 ∨
    usedTotalWeightOf g m v = 70 ∨ usedTotalWeightOf g m v = 100 := by
  cases g <;> cases m <;> cases v <;> norm_num [usedTotalWeightOf]

theorem usedTotalWeightOf_bounds (g m v : Bool) :
    0 ≤ usedTotalWeightOf g m v ∧ usedTotalWeightOf g m v ≤ 100 := by
  rcases usedTotalWeightOf_cases g m v with h | h | h | h | h | h <;> rw [h] <;> norm_num

theorem recommend_usedTotalWeight (nroot : ℚ → ℕ → ℚ) (rows : List Row)
    (mult : Option (Option ℚ × Option ℚ)) :
    (recommend nroot rows mult).usedTotalWeight
      = usedTotalWeightOf (recommend nroot rows mult).usedGrowth
          (recommend nroot rows mult).usedMargin (recommend nroot rows mult).usedValue := rfl

theorem recommend_coverage_bounds (nroot : ℚ → ℕ → ℚ) (rows : List Row)
    (mult : Option (Option ℚ × Option ℚ)) :
    0 ≤ (recommend nroot rows mult).coverage ∧ (recommend nroot rows mult).coverage ≤ 1 := by
  have hW := usedTotalWeightOf_bounds (recommend nroot rows mult).usedGrowth
    (recommend nroot rows mult).usedMargin (recommend nroot rows mult).usedValue
  rw [← recommend_usedTotalWeight] at hW
  have hc : (recommend nroot rows mult).coverage
      = (recommend nroot rows mult).usedTotalWeight / 100 := rfl
  constructor
  · rw [hc]; exact div_nonneg hW.1 (by norm_num)
  · rw [hc]; rw [div_le_one (by norm_num)]; linarith [hW.2]

/-! ## Claims -/

/-- **C1.** For every input series, the final score lies in [0,100], coverage
in [0,1] and the penalty factor in [0.7,1.0], with
`coverage = usedTotalWeight / 100`,
`penaltyFactor = 0.7 + 0.3 * coverage`, and
`finalScore = round (scoreNorm * penaltyFactor)` clamped to [0,100]. -/
theorem score_coverage_penalty_bounds (nroot : ℚ → ℕ → ℚ) (rows : List Row)
    (mult : Option (Option ℚ × Option ℚ)) :
    (0 ≤ (recommend nroot rows mult).score ∧ (recommend nroot rows mult).score ≤ 100) ∧
    (0 ≤ (recommend nroot rows mult).coverage ∧ (recommend nroot rows mult).coverage ≤ 1) ∧
    (7/10 ≤ (recommend nroot rows mult).penaltyFactor ∧
      (recommend nroot rows mult).penaltyFactor ≤ 1) ∧
    (recommend nroot rows mult).coverage = (recommend nroot rows mult).usedTotalWeight / 100 ∧
    (recommend nroot rows mult).penaltyFactor
      = 7/10 + 3/10 * (recommend nroot rows mult).coverage ∧
    (recommend nroot rows mult).score
      = max 0 (min 100 (jround
          ((recommend nroot rows mult).scoreNorm * (recommend nroot rows mult).penaltyFactor))) := by
  have hcov := recommend_coverage_bounds nroot rows mult
  refine ⟨⟨?_, ?_⟩, hcov, ⟨?_, ?_⟩, rfl, rfl, rfl⟩
  · exact le_max_left _ _
  · exact max_le (by norm_num) (min_le_left _ _)
  · have hp : (recommend nroot rows mult).penaltyFactor
        = 7/10 + 3/10 * (recommend nroot rows mult).coverage := rfl
    rw [hp]; linarith [hcov.1]
  · have hp : (recommend nroot rows mult).penaltyFactor
        = 7/10 + 3/10 * (recommend nroot rows mult).coverage := rfl
    rw [hp]; linarith [hcov.2]

/-- **C10.** Every sub-score is bounded by its component's maximum: growth in
[0,35]; margin in [0,35], at most 20 from the operating-margin half plus 15
from the FCF half; value in [0,30], at most 18 from P/E plus 12 from P/S; and
the raw total never exceeds the used total weight. -/
theorem subscore_bounds (nroot : ℚ → ℕ → ℚ) (rows : List Row)
    (mult : Option (Option ℚ × Option ℚ)) :
    (0 ≤ (recommend nroot rows mult).growthScore ∧
      (recommend nroot rows mult).growthScore ≤ 35) ∧
    ((recommend nroot rows mult).marginScore
        = opPartOf (recommend nroot rows mult).opMargin
          + fcfPartOf (recommend nroot rows mult).fcfMargin ∧
      opPartOf (recommend nroot rows mult).opMargin ≤ 20 ∧
      fcfPartOf (recommend nroot rows mult).fcfMargin ≤ 15 ∧
      0 ≤ (recommend nroot rows mult).marginScore ∧
      (recommend nroot rows mult).marginScore ≤ 35) ∧
    ((recommend nroot rows mult).valueScore
        = pePartOf (recommend nroot rows mult).peScored
          + psPartOf (recommend nroot rows mult).psScored ∧
      pePartOf (recommend nroot rows mult).peScored ≤ 18 ∧
      psPartOf (recommend nroot rows mult).psScored ≤ 12 ∧
      0 ≤ (recommend nroot rows mult).valueScore ∧
      (recommend nroot rows mult).valueScore ≤ 30) ∧
    (recommend nroot rows mult).growthScore + (recommend nroot rows mult).marginScore
        + (recommend nroot rows mult).valueScore
      ≤ (recommend nroot rows mult).usedTotalWeight := by
  have hg := growthScoreOf_bounds (recommend nroot rows mult).revCagr
  have hgr : (recommend nroot rows mult).growthScore
      = growthScoreOf (recommend nroot rows mult).revCagr := rfl
  have hop := opPartOf_bounds (recommend nroot rows mult).opMargin
  have hfc := fcfPartOf_bounds (recommend nroot rows mult).fcfMargin
  have hmr : (recommend nroot rows mult).marginScore
      = opPartOf (recommend nroot rows mult).opMargin
        + fcfPartOf (recommend nroot rows mult).fcfMargin := rfl
  have hpe := pePartOf_bounds (recommend nroot rows mult).peScored
  have hps := psPartOf_bounds (recommend nroot rows mult).psScored
  have hvr : (recommend nroot rows mult).valueScore
      = pePartOf (recommend nroot rows mult).peScored
        + psPartOf (recommend nroot rows mult).psScored := rfl
  refine ⟨⟨hgr ▸ hg.1, hgr ▸ hg.2⟩,
    ⟨hmr, hop.2, hfc.2, ?_, ?_⟩, ⟨hvr, hpe.2, hps.2, ?_, ?_⟩, ?_⟩
  · rw [hmr]; linarith [hop.1, hfc.1]
  · rw [hmr]; linarith [hop.2, hfc.2]
  · rw [hvr]; linarith [hpe.1, hps.1]
  · rw [hvr]; linarith [hpe.2, hps.2]
  · have h1 := growthScoreOf_le_weight (recommend nroot rows mult).revCagr
    have h2 := marginScore_le_weight (recommend nroot rows mult).opMargin
      (recommend nroot rows mult).fcfMargin
    have h3 := valueScore_le_weight (recommend nroot rows mult).peScored
      (recommend nroot rows mult).psScored
    have hGu : (recommend nroot rows mult).usedGrowth
        = (recommend nroot rows mult).revCagr.isSome := rfl
    have hMu : (recommend nroot rows mult).usedMargin
        = ((recommend nroot rows mult).opMargin.isSome
            || (recommend nroot rows mult).fcfMargin.isSome) := rfl
    have hVu : (recommend nroot rows mult).usedValue
        = ((recommend nroot rows mult).peScored.isSome
            || (recommend nroot rows mult).psScored.isSome) := rfl
    rw [hgr, hmr, hvr, recommend_usedTotalWeight, usedTotalWeightOf, hGu, hMu, hVu]
    exact add_le_add (add_le_add h1 h2) h3

/-- **C2.** Whenever the computed coverage is below 0.6, the result's signal
is WATCH and `low_conf` is true, regardless of the final score, and the
pre-override signal is retained as `base_signal`. -/
theorem low_confidence_override (nroot : ℚ → ℕ → ℚ) (rows : List Row)
    (mult : Option (Option ℚ × Option ℚ))
    (h : (recommend nroot rows mult).coverage < 3/5) :
    (recommend nroot rows mult).signal = Signal.WATCH ∧
    (recommend nroot rows mult).lowConf = true ∧
    (recommend nroot rows mult).baseSignal = signalOf (recommend nroot rows mult).score := by
  have hl : (recommend nroot rows mult).lowConf
      = decide ((recommend nroot rows mult).coverage < 3/5) := rfl
  have hlt : (recommend nroot rows mult).lowConf = true := by
    rw [hl]; exact decide_eq_true h
  have hs : (recommend nroot rows mult).signal
      = if (recommend nroot rows mult).lowConf = true ∧
            (recommend nroot rows mult).baseSignal ≠ Signal.WATCH
        then Signal.WATCH else (recommend nroot rows mult).baseSignal := rfl
  refine ⟨?_, hlt, rfl⟩
  rw [hs]
  by_cases hb : (recommend nroot rows mult).baseSignal = Signal.WATCH
  · simp [hb]
  · simp [hb, hlt]

/-- Witness for C2 at the empty input: coverage 0 < 0.6, so the signal is
WATCH with `low_conf = true`. -/
theorem low_confidence_override_witness :
    (recommend nroot₀ [] none).coverage < 3/5 ∧
    ((recommend nroot₀ [] none).signal = Signal.WATCH ∧
      (recommend nroot₀ [] none).lowConf = true ∧
      (recommend nroot₀ [] none).baseSignal = signalOf (recommend nroot₀ [] none).score) := by
  have hcov : (recommend nroot₀ [] none).coverage < 3/5 := by
    norm_num [recommend, sortRows, revCagrOf, yoyOf, opMarginOf, fcfMarginOf,
      sanitizeMultiples, optGt, usedTotalWeightOf, List.insertionSort]
  exact ⟨hcov, low_confidence_override nroot₀ [] none hcov⟩

/-- **C5 (counterexample).** With no rows and only a P/E multiple, the used
total weight is 30 — a value missing from the claim's enumeration
{0, 35, 65, 70, 100}. -/
theorem usedWeight_thirty_counterexample :
    (recommend nroot₀ [] (some (some 18, none))).usedTotalWeight = 30 ∧
    ¬((30 : ℚ) = 0 ∨ (30 : ℚ) = 35 ∨ (30 : ℚ) = 65 ∨ (30 : ℚ) = 70 ∨ (30 : ℚ) = 100) := by
  constructor
  · norm_num [recommend, sortRows, revCagrOf, yoyOf, opMarginOf, fcfMarginOf,
      sanitizeMultiples, optGt, usedTotalWeightOf, List.insertionSort]
  · norm_num

/-- **C5 (amended).** The used total weight is the sum of the weights
(growth 35, margin 35, value 30) of the used components, and it takes only
the values 0, 30, 35, 65, 70 or 100. -/
theorem usedWeight_enumeration (nroot : ℚ → ℕ → ℚ) (rows : List Row)
    (mult : Option (Option ℚ × Option ℚ)) :
    (recommend nroot rows mult).usedTotalWeight
      = (if (recommend nroot rows mult).usedGrowth then (35:ℚ) else 0)
        + (if (recommend nroot rows mult).usedMargin then (35:ℚ) else 0)
        + (if (recommend nroot rows mult).usedValue then (30:ℚ) else 0) ∧
    ((recommend nroot rows mult).usedTotalWeight = 0 ∨
      (recommend nroot rows mult).usedTotalWeight = 30 ∨
      (recommend nroot rows mult).usedTotalWeight = 35 ∨
      (recommend nroot rows mult).usedTotalWeight = 65 ∨
      (recommend nroot rows mult).usedTotalWeight = 70 ∨
      (recommend nroot rows mult).usedTotalWeight = 100) := by
  refine ⟨rfl, ?_⟩
  rw [recommend_usedTotalWeight]
  exact usedTotalWeightOf_cases _ _ _

/-- **C4.** On a series whose every field is absent and with no multiples:
neutral `scoreNorm = 50`, `coverage = 0`, `penaltyFactor = 0.7`,
`finalScore = 35`, base signal AVOID, final signal WATCH with
`low_conf = true`, and the single neutral-score warning. -/
theorem empty_series_example (nroot : ℚ → ℕ → ℚ) :
    (recommend nroot
        [⟨2021, none, none, none⟩, ⟨2022, none, none, none⟩, ⟨2023, none, none, none⟩]
        none).scoreNorm = 50 ∧
    (recommend nroot
        [⟨2021, none, none, none⟩, ⟨2022, none, none, none⟩, ⟨2023, none, none, none⟩]
        none).coverage = 0 ∧
    (recommend nroot
        [⟨2021, none, none, none⟩, ⟨2022, none, none, none⟩, ⟨2023, none, none, none⟩]
        none).penaltyFactor = 7/10 ∧
    (recommend nroot
        [⟨2021, none, none, none⟩, ⟨2022, none, none, none⟩, ⟨2023, none, none, none⟩]
        none).score = 35 ∧
    (recommend nroot
        [⟨2021, none, none, none⟩, ⟨2022, none, none, none⟩, ⟨2023, none, none, none⟩]
        none).baseSignal = Signal.AVOID ∧
    (recommend nroot
        [⟨2021, none, none, none⟩, ⟨2022, none, none, none⟩, ⟨2023, none, none, none⟩]
        none).signal = Signal.WATCH ∧
    (recommend nroot
        [⟨2021, none, none, none⟩, ⟨2022, none, none, none⟩, ⟨2023, none, none, none⟩]
        none).lowConf = true ∧
    (recommend nroot
        [⟨2021, none, none, none⟩, ⟨2022, none, none, none⟩, ⟨2023, none, none, none⟩]
        none).warnings = [noSignalsWarning] := by
  refine ⟨?_, ?_, ?_, ?_, ?_, ?_, ?_, ?_⟩ <;>
    norm_num [recommend, sortRows, revCagrOf, yoyOf, opMarginOf, fcfMarginOf,
      sanitizeMultiples, optGt, usedTotalWeightOf, List.insertionSort, List.orderedInsert,
      growthScoreOf, opPartOf, fcfPartOf, pePartOf, psPartOf, jround, clamp, signalOf]

/-- The revenue-growth selection rule as the (amended) specification words
it: the `n-1`-interval CAGR from oldest to latest revenue when at least 3
years are available with both endpoint revenues present — null there if
either endpoint is ≤ 0 — and otherwise the simple year-over-year growth
from the two most recent years, computed whenever both revenues are
present and the previous one is nonzero (its sign is not checked). -/
def revenueCagrSpec (nroot : ℚ → ℕ → ℚ) (rs : List Row) : Option ℚ :=
  let oldestRev := rs.head?.bind Row.revenue
  let latestRev := rs.getLast?.bind Row.revenue
  let prevRev := (if 2 ≤ rs.length then rs.get? (rs.length - 2) else none).bind Row.revenue
  if 3 ≤ rs.length ∧ oldestRev.isSome ∧ latestRev.isSome then
    match oldestRev, latestRev with
    | some a, some b =>
        if a ≤ 0 ∨ b ≤ 0 then none
        else some (nroot (b / a) (rs.length - 1) - 1)
    | _, _ => none
  else
    match prevRev, latestRev with
    | some p, some l => if p = 0 then none else some (l / p - 1)
    | _, _ => none

theorem revCagrOf_eq_spec (nroot : ℚ → ℕ → ℚ) (rs : List Row) :
    revCagrOf nroot rs = revenueCagrSpec nroot rs := by
  unfold revCagrOf revenueCagrSpec yoyOf
  cases ho : rs.head?.bind Row.revenue with
  | none => simp [ho]
  | some a =>
    cases hl : rs.getLast?.bind Row.revenue with
    | none => simp [ho, hl]
    | some b =>
      by_cases h3 : 3 ≤ rs.length
      · have hy : rs.length - 1 ≠ 0 := by omega
        simp [ho, hl, h3, cagr, hy]
      · simp only [ho, hl, h3, false_and, if_false]
        cases hp : (if 2 ≤ rs.length then rs.get? (rs.length - 2) else none).bind Row.revenue with
        | none => simp
        | some p =>
          by_cases hpz : p = 0
          · simp [hpz]
          · simp [hpz]

/-- **C6 (amended).** The engine's `revenueCagr` matches the amended
selection rule: CAGR over `n-1` intervals when ≥ 3 sorted years carry both
endpoint revenues (null there if an endpoint is ≤ 0), otherwise simple YoY
growth from the two most recent years whenever both are present and the
previous revenue is nonzero, regardless of its sign. -/
theorem revenue_cagr_selection (nroot : ℚ → ℕ → ℚ) (rows : List Row)
    (mult : Option (Option ℚ × Option ℚ)) :
    (recommend nroot rows mult).revCagr = revenueCagrSpec nroot (sortRows rows) := by
  have h : (recommend nroot rows mult).revCagr = revCagrOf nroot (sortRows rows) := rfl
  rw [h, revCagrOf_eq_spec]

/-- **C6 (counterexample).** A two-row series with previous revenue −100
(≤ 0) and latest revenue 50 yields `revCagr = −3/2`, not null: the YoY
branch only checks that the previous revenue is nonzero, so the claim's
"null if either endpoint ≤ 0" fails for the YoY case. -/
theorem revenue_cagr_negative_endpoint_counterexample :
    (recommend nroot₀ [⟨2022, some (-100), none, none⟩, ⟨2023, some 50, none, none⟩]
        none).revCagr = some (-(3/2)) ∧
    (recommend nroot₀ [⟨2022, some (-100), none, none⟩, ⟨2023, some 50, none, none⟩]
        none).revCagr ≠ none ∧
    ((-100 : ℚ) ≤ 0) := by
  have h1 : (recommend nroot₀ [⟨2022, some (-100), none, none⟩, ⟨2023, some 50, none, none⟩]
      none).revCagr = some (-(3/2)) := by
    norm_num [recommend, sortRows, revCagrOf, yoyOf, List.insertionSort, List.orderedInsert]
  exact ⟨h1, by rw [h1]; simp, by norm_num⟩

/-- The three-way field-resolution rule the Reconciler promises: the
preferred provider's value when present, else the fallback's, else null,
with matching provenance. -/
def fieldRule (av bv v : Option ℚ) (s : String) : Prop :=
  (av.isSome = true → v = av ∧ s = "finnhub") ∧
  (av = none → bv.isSome = true → v = bv ∧ s = "sec") ∧
  (av = none → bv = none → v = none ∧ s = "none")

theorem resolveField_fieldRule (a b : Option ℚ) :
    fieldRule a b (resolveField a b).1 (resolveField a b).2 := by
  cases a <;> cases b <;> simp [fieldRule, resolveField]

/-- **C3.** Every merged row resolves each of its three fields independently:
the field takes the preferred (finnhub) provider's value when present
(provenance "finnhub"), otherwise the fallback (sec) provider's value when
present (provenance "sec"), otherwise null (provenance "none"). -/
theorem merge_field_independence (fh sec : List Row) (m : MergedRow)
    (hm : m ∈ mergeRowsPreferFinnhub fh sec) :
    fieldRule ((lastRowFor fh m.year).bind Row.revenue)
        ((lastRowFor sec m.year).bind Row.revenue) m.revenue m.revenueSource ∧
    fieldRule ((lastRowFor fh m.year).bind Row.opIncome)
        ((lastRowFor sec m.year).bind Row.opIncome) m.opIncome m.opIncomeSource ∧
    fieldRule ((lastRowFor fh m.year).bind Row.fcf)
        ((lastRowFor sec m.year).bind Row.fcf) m.fcf m.fcfSource := by
  rcases List.mem_map.mp hm with ⟨y, _, rfl⟩
  have hy : (mergeRow fh sec y).year = y := rfl
  rw [hy]
  exact ⟨resolveField_fieldRule _ _, resolveField_fieldRule _ _, resolveField_fieldRule _ _⟩

/-- Concrete preferred-provider row list for the C3 witness. -/
def witFh : List Row := [⟨2023, some 100, none, none⟩]

/-- Concrete fallback-provider row list for the C3 witness. -/
def witSec : List Row := [⟨2023, none, some 7, none⟩]

/-- Witness for C3: one year where revenue comes from the preferred
provider, operating income from the fallback, and FCF from neither. -/
theorem merge_field_independence_witness :
    (mergeRow witFh witSec 2023).revenue = some 100 ∧
    (mergeRow witFh witSec 2023).revenueSource = "finnhub" ∧
    (mergeRow witFh witSec 2023).opIncome = some 7 ∧
    (mergeRow witFh witSec 2023).opIncomeSource = "sec" ∧
    (mergeRow witFh witSec 2023).fcf = none ∧
    (mergeRow witFh witSec 2023).fcfSource = "none" := by
  have hmem : mergeRow witFh witSec 2023 ∈ mergeRowsPreferFinnhub witFh witSec := by
    simp [mergeRowsPreferFinnhub, mergedYears, unionYears, witFh, witSec,
      List.insertionSort, List.orderedInsert]
  have h := merge_field_independence witFh witSec (mergeRow witFh witSec 2023) hmem
  have h1 := h.1.1 (by simp [mergeRow, witFh, lastRowFor])
  have h2 := h.2.1.2.1 (by simp [mergeRow, witFh, lastRowFor]) (by simp [mergeRow, witSec, lastRowFor])
  have h3 := h.2.2.2.2 (by simp [mergeRow, witFh, lastRowFor]) (by simp [mergeRow, witSec, lastRowFor])
  refine ⟨h1.1.trans (by simp [mergeRow, witFh, lastRowFor]), h1.2,
    h2.1.trans (by simp [mergeRow, witSec, lastRowFor]), h2.2, h3.1, h3.2⟩

theorem merge_years_map (fh sec : List Row) :
    (mergeRowsPreferFinnhub fh sec).map MergedRow.year = mergedYears fh sec := by
  unfold mergeRowsPreferFinnhub
  rw [List.map_map]
  have h : MergedRow.year ∘ mergeRow fh sec = id := funext fun y => rfl
  rw [h, List.map_id]

theorem mergedYears_sorted_lt (fh sec : List Row) :
    List.Sorted (· < ·) (mergedYears fh sec) := by
  unfold mergedYears
  have hs : List.Sorted (· ≤ ·) (List.insertionSort (· ≤ ·) (unionYears fh sec)) :=
    List.sorted_insertionSort _ _
  have hn : (List.insertionSort (· ≤ ·) (unionYears fh sec)).Nodup :=
    (List.perm_insertionSort _ _).nodup_iff.mpr (List.nodup_dedup _)
  exact (hs.lt_of_le hn).sublist (List.drop_sublist _ _)

theorem mergedYears_subset_union (fh sec : List Row) (y : Int)
    (hy : y ∈ mergedYears fh sec) : y ∈ unionYears fh sec := by
  unfold mergedYears at hy
  have h1 : y ∈ List.insertionSort (· ≤ ·) (unionYears fh sec) :=
    List.mem_of_mem_drop hy
  exact (List.perm_insertionSort _ _).mem_iff.mp h1

theorem mergedYears_most_recent (fh sec : List Row) (y : Int)
    (hy : y ∈ unionYears fh sec) (hout : y ∉ mergedYears fh sec)
    (z : Int) (hz : z ∈ mergedYears fh sec) : y < z := by
  unfold mergedYears at hout hz
  have hs : List.Sorted (· ≤ ·) (List.insertionSort (· ≤ ·) (unionYears fh sec)) :=
    List.sorted_insertionSort _ _
  have hn : (List.insertionSort (· ≤ ·) (unionYears fh sec)).Nodup :=
    (List.perm_insertionSort _ _).nodup_iff.mpr (List.nodup_dedup _)
  have hlt := hs.lt_of_le hn
  set ys := List.insertionSort (· ≤ ·) (unionYears fh sec) with hys
  set k := ys.length - 3 with hk
  have hsplit : ys.take k ++ ys.drop k = ys := List.take_append_drop _ _
  have hyin : y ∈ ys := (List.perm_insertionSort _ _).mem_iff.mpr hy
  have hytake : y ∈ ys.take k := by
    rcases List.mem_append.mp (hsplit ▸ hyin) with h | h
    · exact h
    · exact absurd h hout
  have hpw : List.Pairwise (· < ·) (ys.take k ++ ys.drop k) := by
    rw [hsplit]; exact hlt
  exact (List.pairwise_append.mp hpw).2.2 y hytake z hz

/-- **C8.** The merged series has strictly increasing years, holds at most 3
rows, every merged year comes from the union of both providers' years, and
any union year left out is older than every year kept (so the kept years
are the most recent ones). -/
theorem merge_year_invariant (fh sec : List Row) :
    List.Sorted (· < ·) ((mergeRowsPreferFinnhub fh sec).map MergedRow.year) ∧
    (mergeRowsPreferFinnhub fh sec).length ≤ 3 ∧
    (∀ m ∈ mergeRowsPreferFinnhub fh sec, m.year ∈ unionYears fh sec) ∧
    (∀ y ∈ unionYears fh sec,
      y ∉ (mergeRowsPreferFinnhub fh sec).map MergedRow.year →
      ∀ m ∈ mergeRowsPreferFinnhub fh sec, y < m.year) := by
  refine ⟨?_, ?_, ?_, ?_⟩
  · rw [merge_years_map]; exact mergedYears_sorted_lt fh sec
  · have hlen : (mergeRowsPreferFinnhub fh sec).length
        = ((mergeRowsPreferFinnhub fh sec).map MergedRow.year).length :=
      (List.length_map _ _).symm
    rw [hlen, merge_years_map]
    unfold mergedYears
    rw [List.length_drop]
    omega
  · intro m hm
    have h : m.year ∈ (mergeRowsPreferFinnhub fh sec).map MergedRow.year :=
      List.mem_map_of_mem _ hm
    rw [merge_years_map] at h
    exact mergedYears_subset_union fh sec m.year h
  · intro y hy hout m hm
    rw [merge_years_map] at hout
    have h : m.year ∈ (mergeRowsPreferFinnhub fh sec).map MergedRow.year :=
      List.mem_map_of_mem _ hm
    rw [merge_years_map] at h
    exact mergedYears_most_recent fh sec y hy hout m.year h

/-- Preferred-provider rows (years 2019, 2021) for the C8 witness. -/
def witFh8 : List Row := [⟨2019, some 1, none, none⟩, ⟨2021, some 3, none, none⟩]

/-- Fallback-provider rows (years 2020, 2022) for the C8 witness. -/
def witSec8 : List Row := [⟨2020, some 2, none, none⟩, ⟨2022, some 4, none, none⟩]

/-- Witness for C8: four union years 2019–2022; the merge keeps the 3 most
recent in increasing order, and the excluded year 2019 is older than the
kept year 2020. -/
theorem merge_year_invariant_witness :
    List.Sorted (· < ·) ((mergeRowsPreferFinnhub witFh8 witSec8).map MergedRow.year) ∧
    (mergeRowsPreferFinnhub witFh8 witSec8).length ≤ 3 ∧
    (mergeRow witFh8 witSec8 2020).year ∈ unionYears witFh8 witSec8 ∧
    (2019 : Int) < (mergeRow witFh8 witSec8 2020).year := by
  have h := merge_year_invariant witFh8 witSec8
  have hmem : mergeRow witFh8 witSec8 2020 ∈ mergeRowsPreferFinnhub witFh8 witSec8 := by
    simp [mergeRowsPreferFinnhub, mergedYears, unionYears, witFh8, witSec8,
      List.insertionSort, List.orderedInsert]
  refine ⟨h.1, h.2.1, h.2.2.1 _ hmem, ?_⟩
  refine h.2.2.2 2019 ?_ ?_ _ hmem
  · simp [unionYears, witFh8, witSec8]
  · rw [merge_years_map]
    simp [mergedYears, unionYears, witFh8, witSec8,
      List.insertionSort, List.orderedInsert]

/-- **C7.** A P/S above 40 (resp. a P/E above 80) is excluded from the value
sub-score — the value score equals the one computed with that multiple
absent — the corresponding warning is emitted, and the original unsanitized
value still appears verbatim in the summary. -/
theorem multiples_sanitization (nroot : ℚ → ℕ → ℚ) (rows : List Row)
    (pe0 ps0 : Option ℚ) (vpe vps : ℚ) :
    (ps0 = some vps → 40 < vps →
      (recommend nroot rows (some (pe0, ps0))).valueScore
        = (recommend nroot rows (some (pe0, none))).valueScore ∧
      (recommend nroot rows (some (pe0, ps0))).psScored = none ∧
      psNote ∈ (recommend nroot rows (some (pe0, ps0))).warnings ∧
      (recommend nroot rows (some (pe0, ps0))).summaryPs = some vps) ∧
    (pe0 = some vpe → 80 < vpe →
      (recommend nroot rows (some (pe0, ps0))).valueScore
        = (recommend nroot rows (some (none, ps0))).valueScore ∧
      (recommend nroot rows (some (pe0, ps0))).peScored = none ∧
      peNote ∈ (recommend nroot rows (some (pe0, ps0))).warnings ∧
      (recommend nroot rows (some (pe0, ps0))).summaryPe = some vpe) := by
  constructor
  · rintro rfl hv
    have hbad : optGt (some vps) 40 = true := by simp [optGt]; exact hv
    have hval : ∀ q : Option ℚ,
        (recommend nroot rows (some (pe0, q))).valueScore
          = pePartOf (sanitizeMultiples pe0 q).pe + psPartOf (sanitizeMultiples pe0 q).ps :=
      fun q => rfl
    have hpsc : (recommend nroot rows (some (pe0, some vps))).psScored
        = (sanitizeMultiples pe0 (some vps)).ps := rfl
    have hw : (recommend nroot rows (some (pe0, some vps))).warnings
        = (sanitizeMultiples pe0 (some vps)).notes
          ++ (if (recommend nroot rows (some (pe0, some vps))).coverage = 0
              then [noSignalsWarning]
              else if (recommend nroot rows (some (pe0, some vps))).coverage < 7/20
              then [veryLowCoverageWarning]
              else if (recommend nroot rows (some (pe0, some vps))).coverage < 3/5
              then [lowCoverageWarning]
              else []) := rfl
    refine ⟨?_, ?_, ?_, rfl⟩
    · rw [hval, hval]
      simp [sanitizeMultiples, hbad, optGt, hv]
    · rw [hpsc]
      simp [sanitizeMultiples, hbad]
    · rw [hw]
      refine List.mem_append_left _ ?_
      simp [sanitizeMultiples, hbad]
  · rintro rfl hv
    have hbad : optGt (some vpe) 80 = true := by simp [optGt]; exact hv
    have hval : ∀ q : Option ℚ,
        (recommend nroot rows (some (q, ps0))).valueScore
          = pePartOf (sanitizeMultiples q ps0).pe + psPartOf (sanitizeMultiples q ps0).ps :=
      fun q => rfl
    have hpec : (recommend nroot rows (some (some vpe, ps0))).peScored
        = (sanitizeMultiples (some vpe) ps0).pe := rfl
    have hw : (recommend nroot rows (some (some vpe, ps0))).warnings
        = (sanitizeMultiples (some vpe) ps0).notes
          ++ (if (recommend nroot rows (some (some vpe, ps0))).coverage = 0
              then [noSignalsWarning]
              else if (recommend nroot rows (some (some vpe, ps0))).coverage < 7/20
              then [veryLowCoverageWarning]
              else if (recommend nroot rows (some (some vpe, ps0))).coverage < 3/5
              then [lowCoverageWarning]
              else []) := rfl
    refine ⟨?_, ?_, ?_, rfl⟩
    · rw [hval, hval]
      simp [sanitizeMultiples, hbad, optGt, hv]
    · rw [hpec]
      simp [sanitizeMultiples, hbad]
    · rw [hw]
      refine List.mem_append_left _ ?_
      simp [sanitizeMultiples, hbad]

/-- Witness for C7 at P/E 100 and P/S 45 with no rows: both multiples are
excluded, both warnings emitted, both originals kept in the summary. -/
theorem multiples_sanitization_witness :
    ((recommend nroot₀ [] (some (some 100, some 45))).valueScore
        = (recommend nroot₀ [] (some (some 100, none))).valueScore ∧
      (recommend nroot₀ [] (some (some 100, some 45))).psScored = none ∧
      psNote ∈ (recommend nroot₀ [] (some (some 100, some 45))).warnings ∧
      (recommend nroot₀ [] (some (some 100, some 45))).summaryPs = some 45) ∧
    ((recommend nroot₀ [] (some (some 100, some 45))).valueScore
        = (recommend nroot₀ [] (some (none, some 45))).valueScore ∧
      (recommend nroot₀ [] (some (some 100, some 45))).peScored = none ∧
      peNote ∈ (recommend nroot₀ [] (some (some 100, some 45))).warnings ∧
      (recommend nroot₀ [] (some (some 100, some 45))).summaryPe = some 100) := by
  have h := multiples_sanitization nroot₀ [] (some 100) (some 45) 100 45
  exact ⟨h.1 rfl (by norm_num), h.2 rfl (by norm_num)⟩

/-- **C9.** When the ticker has no CIK mapping, the financials route returns
a successful (HTTP 200) empty payload — empty rows, null multiples, an
explanatory note — not an error, and scoring that payload is identical to
scoring a fully absent input, with zero coverage. -/
theorem no_cik_soft_degradation (nroot : ℚ → ℕ → ℚ) :
    noCikResponse = FinResponse.ok 200 noCikPayload ∧
    noCikPayload.rows = [] ∧
    noCikPayload.multiples = some (none, none) ∧
    noCikPayload.sourceNote = some "SEC has no CIK mapping for this ticker." ∧
    recommend nroot noCikPayload.rows noCikPayload.multiples = recommend nroot [] none ∧
    (recommend nroot noCikPayload.rows noCikPayload.multiples).usedTotalWeight = 0 ∧
    (recommend nroot noCikPayload.rows noCikPayload.multiples).coverage = 0 := by
  refine ⟨rfl, rfl, rfl, rfl, rfl, ?_, ?_⟩ <;>
    norm_num [recommend, noCikPayload, sortRows, revCagrOf, yoyOf, opMarginOf, fcfMarginOf,
      sanitizeMultiples, optGt, usedTotalWeightOf, List.insertionSort]

end InvestPortal
